import Mathlib

/-!
# Sphere tracer and script argument readers of `implicitv1`

A shallow embedding of `src/kernels/raytrace.h` (the OpenCL sphere tracing
kernel) and of the argument readers of `src/implicit/lua_interface.cpp`.

The kernel is embedded twice, and the two are proved to agree
(`exact_sphere_trace`).

* `Kernel.Fp`: the kernel over a record `FloatOps` of float operations with no
  law assumed, so that whatever is proved holds for binary32 with its rounding.
  `binary32` is the instance for IEEE 754 binary32, round to nearest, ties to
  even, on finite values; statements about numbers that the rounding decides
  are made on it.
* `Kernel`: the same definitions at exact arithmetic in a linearly ordered
  field with a floor function (no rounding, no NaN, no infinities), for the
  statements on control flow and on ranges of real numbers.

Further conventions.

* `sqrt` (used by the OpenCL built-ins `length` and `normalize`) is a
  parameter of the exact definitions; `dot`, `normalize` and `fabs` are fields
  of `FloatOps`.
* `f_entity(packed, offsets, types, valBuf, nEntities, steps, nSteps, &pt)`
  lives in `kernel_primitives.h`; it is taken as a parameter `f`, a function of
  the point alone.
* `int` loop counters are naturals; `uint` is a natural below `2 ^ 32`.
* A cast `(uint) x` of a value outside the range of `uint` is undefined in C;
  the conversion therefore returns an `Option`.
-/

namespace Kernel

/-- Three component vector, the OpenCL type `float3`. -/
structure Float3 (α : Type) where
  x : α
  y : α
  z : α
deriving DecidableEq, Repr

namespace Float3

variable {α : Type} [LinearOrderedField α]

/-- Component-wise sum, the operator `a + b` on `float3`. -/
def add (a b : Float3 α) : Float3 α := ⟨a.x + b.x, a.y + b.y, a.z + b.z⟩

/-- Component-wise difference, the operator `a - b` on `float3`. -/
def sub (a b : Float3 α) : Float3 α := ⟨a.x - b.x, a.y - b.y, a.z - b.z⟩

/-- Vector times scalar, the operator `v * s` on `float3`. -/
def smul (v : Float3 α) (s : α) : Float3 α := ⟨v.x * s, v.y * s, v.z * s⟩

/-- Unary minus, the operator `-v` on `float3`. -/
def neg (v : Float3 α) : Float3 α := ⟨-v.x, -v.y, -v.z⟩

/-- Dot product, the OpenCL built-in `dot`. -/
def dot (a b : Float3 α) : α := a.x * b.x + a.y * b.y + a.z * b.z

/-- Euclidean length, the OpenCL built-in `length`, over the given `sqrt`. -/
def length (sqrt : α → α) (v : Float3 α) : α := sqrt (dot v v)

/-- Unit vector of `v`, the OpenCL built-in `normalize`: `v / length v`. -/
def normalize (sqrt : α → α) (v : Float3 α) : Float3 α :=
  ⟨v.x / length sqrt v, v.y / length sqrt v, v.z / length sqrt v⟩

end Float3

open Float3

section Defs

variable {α : Type} [LinearOrderedField α]

/-- Finite-difference step, `#define DX 0.0001f`. -/
def DX : α := 1 / 10000

/-- Half-width of the bounding region, `#define BOUND 20.0f`. -/
def BOUND : α := 20

/-- Colour of a miss, `#define BACKGROUND_COLOR 0xff101010`. -/
def BACKGROUND_COLOR : Nat := 0xff101010

/-- Result of the macro `GRADIENT(func, pt, norm, v0)`: the vector stored in
`norm`, the value of `pt` after the macro, and the points at which `func` was
evaluated, in order. -/
structure GradientResult (α : Type) where
  norm : Float3 α
  pt : Float3 α
  samples : List (Float3 α)
deriving DecidableEq

/-- The macro `GRADIENT(func, pt, norm, v0)`, statement by statement, at exact
arithmetic: each axis is bumped by `DX`, `func` is sampled, `DX` is subtracted
again, and the three differences with `v0` are divided by `DX`. With rounding
the subtraction need not give the coordinate back: see `Fp.GRADIENT`. -/
def GRADIENT (func : Float3 α → α) (pt : Float3 α) (v0 : α) : GradientResult α :=
  let pt1 : Float3 α := { pt with x := pt.x + DX }
  let vx := func pt1
  let pt2 : Float3 α := { pt1 with x := pt1.x - DX }
  let pt3 : Float3 α := { pt2 with y := pt2.y + DX }
  let vy := func pt3
  let pt4 : Float3 α := { pt3 with y := pt3.y - DX }
  let pt5 : Float3 α := { pt4 with z := pt4.z + DX }
  let vz := func pt5
  let pt6 : Float3 α := { pt5 with z := pt5.z - DX }
  { norm := ⟨(vx - v0) / DX, (vy - v0) / DX, (vz - v0) / DX⟩
    pt := pt6
    samples := [pt1, pt3, pt5] }

variable [FloorRing α]

/-- The cast `(uint) x` of a float: truncation toward zero when the truncated
value is representable in 32 bits, undefined (`none`) otherwise. -/
def floatToUint (x : α) : Option Nat :=
  if -1 < x ∧ x < 4294967296 then some ⌊x⌋₊ else none

/-- The function `colorToInt`: the alpha byte `0xff` and the three channels
scaled by 255, cast to `uint`, shifted and or-ed together. -/
def colorToInt (rgb : Float3 α) : Option Nat := do
  let color : Nat := 0xff000000
  let r ← floatToUint (rgb.x * 255)
  let color := color ||| r
  let g ← floatToUint (rgb.y * 255)
  let color := color ||| ((g <<< 8) % 4294967296)
  let b ← floatToUint (rgb.z * 255)
  let color := color ||| ((b <<< 16) % 4294967296)
  pure color

/-- Local variables of `sphere_trace` that the loop changes, with a ghost log
`evals` of the points at which `f_entity` has been called, oldest first. -/
structure MarchState (α : Type) where
  found : Bool
  norm : Float3 α
  pt : Float3 α
  evals : List (Float3 α)
deriving DecidableEq

/-- How one pass through the loop body ends: `brk` for a `break`, `next` for
reaching the end of the body (the loop then increments `i`). -/
inductive Step (α : Type) where
  | brk : MarchState α → Step α
  | next : MarchState α → Step α
deriving DecidableEq

/-- Test `fabs(pt.x) > BOUND || fabs(pt.y) > BOUND || fabs(pt.z) > BOUND`. -/
def outOfBound (pt : Float3 α) : Prop :=
  |pt.x| > BOUND ∨ |pt.y| > BOUND ∨ |pt.z| > BOUND

instance (pt : Float3 α) : Decidable (outOfBound pt) := by
  unfold outOfBound; infer_instance

/-- Body of the `for` loop of `sphere_trace` at loop index `i` (lines 43-56);
`dir` is the already normalized direction. -/
def marchBody (f : Float3 α → α) (dir : Float3 α) (tolerance : α) (i : Nat)
    (s : MarchState α) : Step α :=
  let d := f s.pt
  let s : MarchState α := { s with evals := s.evals ++ [s.pt] }
  if d < 0 then Step.brk s
  else if d < tolerance then
    let g := GRADIENT f s.pt d
    Step.brk { found := true, norm := g.norm, pt := g.pt, evals := s.evals ++ g.samples }
  else
    let s : MarchState α := { s with pt := Float3.add s.pt (Float3.smul dir d) }
    if 5 < i ∧ outOfBound s.pt then Step.brk s
    else Step.next s

/-- The loop `for (int i = ...; i < iters; i++)`: `n` is the number of
iterations left (`iters - i`), `i` the current loop index. -/
def marchLoop (f : Float3 α → α) (dir : Float3 α) (tolerance : α) :
    Nat → Nat → MarchState α → MarchState α
  | 0, _, s => s
  | n + 1, i, s =>
    match marchBody f dir tolerance i s with
    | Step.brk t => t
    | Step.next t => marchLoop f dir tolerance n (i + 1) t

/-- State on entry of the loop: `norm = 0`, `found = false`, nothing evaluated. -/
def initState (pt : Float3 α) : MarchState α :=
  { found := false, norm := ⟨0, 0, 0⟩, pt := pt, evals := [] }

/-- State of `sphere_trace` when the loop is left. -/
def marchResult (sqrt : α → α) (f : Float3 α → α) (pt dir : Float3 α) (iters : Int)
    (tolerance : α) : MarchState α :=
  marchLoop f (normalize sqrt dir) tolerance iters.toNat 0 (initState pt)

/-- Lines 58-59 of `sphere_trace`: the diffuse term `d` and the colour mixed
from the dark base `0.2` and the light base `0.9`. -/
def shade (sqrt : α → α) (norm dir : Float3 α) : Float3 α :=
  let d := dot (normalize sqrt norm) (Float3.neg dir)
  Float3.add (Float3.smul ⟨1 / 5, 1 / 5, 1 / 5⟩ (1 - d)) (Float3.smul ⟨9 / 10, 9 / 10, 9 / 10⟩ d)

/-- The kernel function `sphere_trace`, with `f` standing for `f_entity` on the
packed scene. -/
def sphere_trace (sqrt : α → α) (f : Float3 α → α) (pt dir : Float3 α) (iters : Int)
    (tolerance : α) : Option Nat :=
  let dir := normalize sqrt dir
  let s := marchLoop f dir tolerance iters.toNat 0 (initState pt)
  let color := shade sqrt s.norm dir
  if s.found then colorToInt color else some BACKGROUND_COLOR

/-- State at the top of loop iteration `i`, if the loop gets there: the body
has run for the indices `0 .. i - 1` and ended each time without a `break`. -/
def stateAt (f : Float3 α → α) (dir : Float3 α) (tolerance : α) (pt : Float3 α) :
    Nat → Option (MarchState α)
  | 0 => some (initState pt)
  | i + 1 =>
    match stateAt f dir tolerance pt i with
    | none => none
    | some s =>
      match marchBody f dir tolerance i s with
      | Step.brk _ => none
      | Step.next t => some t

/-- State with which the loop body ends when the distance at `s.pt` is neither
negative nor below the tolerance: the point advanced by that distance along
`dir`, one more evaluation logged. -/
def advanced (f : Float3 α → α) (dir : Float3 α) (s : MarchState α) : MarchState α :=
  { s with pt := Float3.add s.pt (Float3.smul dir (f s.pt)), evals := s.evals ++ [s.pt] }

/-- State with which the loop body ends on a hit at `s.pt`: `found` set, `norm`
and `pt` as the macro `GRADIENT` leaves them, the march evaluation and the
three samples logged. -/
def hitState (f : Float3 α → α) (s : MarchState α) : MarchState α :=
  { found := true
    norm := (GRADIENT f s.pt (f s.pt)).norm
    pt := (GRADIENT f s.pt (f s.pt)).pt
    evals := (s.evals ++ [s.pt]) ++ (GRADIENT f s.pt (f s.pt)).samples }

end Defs

section SceneDefs

variable {α : Type} [LinearOrderedField α]

/-- Square root on the rationals for running the kernel: the integer square
roots of numerator and denominator, exact on squares of rationals. -/
def sqrtQ (q : ℚ) : ℚ := (Nat.sqrt q.num.toNat : ℚ) / (Nat.sqrt q.den : ℚ)

end SceneDefs

/-- Arithmetic of the kernel's `float` type, as a record of operations with no
law assumed: the constants of `raytrace.h`, the four operations, negation,
the comparison `<`, the cast `(uint)`, and the OpenCL built-ins `fabs`, `dot`
and `normalize`. Rounding, whatever it is, is inside the operations. -/
structure FloatOps (F : Type) where
  zero : F
  one : F
  dx : F
  bound : F
  dark : F
  light : F
  scale : F
  add : F → F → F
  sub : F → F → F
  mul : F → F → F
  div : F → F → F
  neg : F → F
  fabs : F → F
  lt : F → F → Bool
  dot : Float3 F → Float3 F → F
  normalize : Float3 F → Float3 F
  toUint : F → Option Nat

namespace Fp

variable {F : Type} (ops : FloatOps F)

/-- The macro `GRADIENT(func, pt, norm, v0)` over the operations `ops`,
statement by statement. The coordinate restored by `pt.x -= DX` is
`(pt.x + DX) - DX`, which need not be `pt.x`. -/
def GRADIENT (func : Float3 F → F) (pt : Float3 F) (v0 : F) : GradientResult F :=
  let pt1 : Float3 F := { pt with x := ops.add pt.x ops.dx }
  let vx := func pt1
  let pt2 : Float3 F := { pt1 with x := ops.sub pt1.x ops.dx }
  let pt3 : Float3 F := { pt2 with y := ops.add pt2.y ops.dx }
  let vy := func pt3
  let pt4 : Float3 F := { pt3 with y := ops.sub pt3.y ops.dx }
  let pt5 : Float3 F := { pt4 with z := ops.add pt4.z ops.dx }
  let vz := func pt5
  let pt6 : Float3 F := { pt5 with z := ops.sub pt5.z ops.dx }
  { norm := ⟨ops.div (ops.sub vx v0) ops.dx, ops.div (ops.sub vy v0) ops.dx,
      ops.div (ops.sub vz v0) ops.dx⟩
    pt := pt6
    samples := [pt1, pt3, pt5] }

/-- The function `colorToInt` over the operations `ops`. -/
def colorToInt (rgb : Float3 F) : Option Nat := do
  let color : Nat := 0xff000000
  let r ← ops.toUint (ops.mul rgb.x ops.scale)
  let color := color ||| r
  let g ← ops.toUint (ops.mul rgb.y ops.scale)
  let color := color ||| ((g <<< 8) % 4294967296)
  let b ← ops.toUint (ops.mul rgb.z ops.scale)
  let color := color ||| ((b <<< 16) % 4294967296)
  pure color

/-- Test `fabs(pt.x) > BOUND || fabs(pt.y) > BOUND || fabs(pt.z) > BOUND`. -/
def outOfBound (pt : Float3 F) : Bool :=
  ops.lt ops.bound (ops.fabs pt.x) || ops.lt ops.bound (ops.fabs pt.y) ||
    ops.lt ops.bound (ops.fabs pt.z)

/-- Body of the `for` loop of `sphere_trace` at loop index `i` (lines 43-56)
over the operations `ops`; `dir` is the already normalized direction. -/
def marchBody (f : Float3 F → F) (dir : Float3 F) (tolerance : F) (i : Nat)
    (s : MarchState F) : Step F :=
  let d := f s.pt
  let s : MarchState F := { s with evals := s.evals ++ [s.pt] }
  if ops.lt d ops.zero then Step.brk s
  else if ops.lt d tolerance then
    let g := GRADIENT ops f s.pt d
    Step.brk { found := true, norm := g.norm, pt := g.pt, evals := s.evals ++ g.samples }
  else
    let s : MarchState F :=
      { s with pt := ⟨ops.add s.pt.x (ops.mul dir.x d), ops.add s.pt.y (ops.mul dir.y d),
                      ops.add s.pt.z (ops.mul dir.z d)⟩ }
    if 5 < i ∧ outOfBound ops s.pt then Step.brk s
    else Step.next s

/-- The loop `for (int i = ...; i < iters; i++)` over the operations `ops`: `n`
is the number of iterations left, `i` the current loop index. -/
def marchLoop (f : Float3 F → F) (dir : Float3 F) (tolerance : F) :
    Nat → Nat → MarchState F → MarchState F
  | 0, _, s => s
  | n + 1, i, s =>
    match marchBody ops f dir tolerance i s with
    | Step.brk t => t
    | Step.next t => marchLoop f dir tolerance n (i + 1) t

/-- State on entry of the loop: `norm = 0`, `found = false`, nothing evaluated. -/
def initState (pt : Float3 F) : MarchState F :=
  { found := false, norm := ⟨ops.zero, ops.zero, ops.zero⟩, pt := pt, evals := [] }

/-- State of `sphere_trace` when the loop is left. -/
def marchResult (f : Float3 F → F) (pt dir : Float3 F) (iters : Int) (tolerance : F) :
    MarchState F :=
  marchLoop ops f (ops.normalize dir) tolerance iters.toNat 0 (initState ops pt)

/-- Lines 58-59 of `sphere_trace` over the operations `ops`: the diffuse term
and the colour `0.2 * (1 - d) + 0.9 * d` on each channel. -/
def shade (norm dir : Float3 F) : Float3 F :=
  let d := ops.dot (ops.normalize norm) ⟨ops.neg dir.x, ops.neg dir.y, ops.neg dir.z⟩
  ⟨ops.add (ops.mul ops.dark (ops.sub ops.one d)) (ops.mul ops.light d),
   ops.add (ops.mul ops.dark (ops.sub ops.one d)) (ops.mul ops.light d),
   ops.add (ops.mul ops.dark (ops.sub ops.one d)) (ops.mul ops.light d)⟩

/-- The kernel function `sphere_trace` over the operations `ops`, with `f`
standing for `f_entity` on the packed scene. -/
def sphere_trace (f : Float3 F → F) (pt dir : Float3 F) (iters : Int) (tolerance : F) :
    Option Nat :=
  let dir := ops.normalize dir
  let s := marchLoop ops f dir tolerance iters.toNat 0 (initState ops pt)
  let color := shade ops s.norm dir
  if s.found then colorToInt ops color else some BACKGROUND_COLOR

/-- State at the top of loop iteration `i`, if the loop gets there. -/
def stateAt (f : Float3 F → F) (dir : Float3 F) (tolerance : F) (pt : Float3 F) :
    Nat → Option (MarchState F)
  | 0 => some (initState ops pt)
  | i + 1 =>
    match stateAt f dir tolerance pt i with
    | none => none
    | some s =>
      match marchBody ops f dir tolerance i s with
      | Step.brk _ => none
      | Step.next t => some t

/-- State with which the loop body ends when the distance at `s.pt` is neither
negative nor below the tolerance. -/
def advanced (f : Float3 F → F) (dir : Float3 F) (s : MarchState F) : MarchState F :=
  { s with
    pt := ⟨ops.add s.pt.x (ops.mul dir.x (f s.pt)), ops.add s.pt.y (ops.mul dir.y (f s.pt)),
           ops.add s.pt.z (ops.mul dir.z (f s.pt))⟩
    evals := s.evals ++ [s.pt] }

/-- State with which the loop body ends on a hit at `s.pt`. -/
def hitState (f : Float3 F → F) (s : MarchState F) : MarchState F :=
  { found := true
    norm := (GRADIENT ops f s.pt (f s.pt)).norm
    pt := (GRADIENT ops f s.pt (f s.pt)).pt
    evals := (s.evals ++ [s.pt]) ++ (GRADIENT ops f s.pt (f s.pt)).samples }

/-- The vector that the macro `GRADIENT` stores for a hit at `p` with march
distance `f p`, written out: the `x` sample is taken at `p` bumped along `x`,
the `y` and `z` samples at points whose earlier coordinates went through
`+ DX` and `- DX`. -/
def bumpedGradient (f : Float3 F → F) (p : Float3 F) : Float3 F :=
  ⟨ops.div (ops.sub (f ⟨ops.add p.x ops.dx, p.y, p.z⟩) (f p)) ops.dx,
   ops.div (ops.sub (f ⟨ops.sub (ops.add p.x ops.dx) ops.dx, ops.add p.y ops.dx, p.z⟩) (f p))
     ops.dx,
   ops.div (ops.sub (f ⟨ops.sub (ops.add p.x ops.dx) ops.dx,
     ops.sub (ops.add p.y ops.dx) ops.dx, ops.add p.z ops.dx⟩) (f p)) ops.dx⟩

/-- The point that the macro `GRADIENT` leaves in `pt` for a hit at `p`. -/
def restoredPoint (p : Float3 F) : Float3 F :=
  ⟨ops.sub (ops.add p.x ops.dx) ops.dx, ops.sub (ops.add p.y ops.dx) ops.dx,
   ops.sub (ops.add p.z ops.dx) ops.dx⟩

/-- The gradient of claim C1 as the claim words it: the one-sided difference
of `f` with step `DX` with all three samples taken from the hit point `p`. -/
def gradientAt (f : Float3 F → F) (p : Float3 F) : Float3 F :=
  ⟨ops.div (ops.sub (f ⟨ops.add p.x ops.dx, p.y, p.z⟩) (f p)) ops.dx,
   ops.div (ops.sub (f ⟨p.x, ops.add p.y ops.dx, p.z⟩) (f p)) ops.dx,
   ops.div (ops.sub (f ⟨p.x, p.y, ops.add p.z ops.dx⟩) (f p)) ops.dx⟩

/-- The gradient estimate as the specification words it: the central
difference of `f` at `p` along each axis with step `DX`. -/
def centralGradient (f : Float3 F → F) (p : Float3 F) : Float3 F :=
  ⟨ops.div (ops.sub (f ⟨ops.add p.x ops.dx, p.y, p.z⟩) (f ⟨ops.sub p.x ops.dx, p.y, p.z⟩))
     (ops.mul (ops.add ops.one ops.one) ops.dx),
   ops.div (ops.sub (f ⟨p.x, ops.add p.y ops.dx, p.z⟩) (f ⟨p.x, ops.sub p.y ops.dx, p.z⟩))
     (ops.mul (ops.add ops.one ops.one) ops.dx),
   ops.div (ops.sub (f ⟨p.x, p.y, ops.add p.z ops.dx⟩) (f ⟨p.x, p.y, ops.sub p.z ops.dx⟩))
     (ops.mul (ops.add ops.one ops.one) ops.dx)⟩

/-- The colour `colorToInt (c, c, c)` with `c = 0.2 * (1 - s) + 0.9 * s` and
`s = dot (normalize g) (-normalize dir)`, for a gradient `g`. -/
def hitColour (g dir : Float3 F) : Option Nat :=
  colorToInt ops (shade ops g (ops.normalize dir))

end Fp

section Exact

variable {α : Type} [LinearOrderedField α] [FloorRing α]

/-- Exact arithmetic in an ordered field as an instance of `FloatOps`: the
operations of the definitions `GRADIENT` to `sphere_trace` above. -/
def exactOps (sqrt : α → α) : FloatOps α :=
  { zero := 0, one := 1, dx := DX, bound := BOUND, dark := 1 / 5, light := 9 / 10,
    scale := 255,
    add := fun a b => a + b, sub := fun a b => a - b, mul := fun a b => a * b,
    div := fun a b => a / b, neg := fun a => -a, fabs := fun a => |a|,
    lt := fun a b => decide (a < b),
    dot := Float3.dot, normalize := Float3.normalize sqrt, toUint := floatToUint }

end Exact

namespace F32impl

/-- The number `2 ^ (2 ^ k)`, by repeated squaring. -/
def twoPowPow : Nat → Nat
  | 0 => 2
  | k + 1 => twoPowPow k * twoPowPow k

/-- Product of the `2 ^ (2 ^ j)` over the binary digits `j < k` set in `e`. -/
def pow2Aux : Nat → Nat → Nat
  | 0, _ => 1
  | k + 1, e => (if e / 2 ^ k % 2 = 1 then twoPowPow k else 1) * pow2Aux k e

/-- The power `2 ^ e`, for `e < 1024`. -/
def pow2 (e : Nat) : Nat := pow2Aux 10 e

/-- Binary search for the position of the leading bit of `n`. -/
def log2Aux : Nat → Nat → Nat → Nat
  | 0, _, acc => acc
  | k + 1, n, acc =>
    if twoPowPow k ≤ n then log2Aux k (n / twoPowPow k) (acc + 2 ^ k) else log2Aux k n acc

/-- Floor of the binary logarithm of `n`, for `0 < n < 2 ^ 1024`. -/
def ilog2 (n : Nat) : Nat := log2Aux 10 n 0

/-- Round to nearest, ties to even, with a 24 bit significand: the natural
number with at most 24 significant bits nearest to `p / q`. -/
def roundNat (p q : Nat) : Nat :=
  if p = 0 then 0 else
  let e0 := (ilog2 p - ilog2 q) - 24
  let e1 := if 16777216 ≤ p / (q * pow2 e0) then e0 + 1 else e0
  let e := if 16777216 ≤ p / (q * pow2 e1) then e1 + 1 else e1
  let d := q * pow2 e
  let Q := p / d
  let R := p % d
  let Q2 := if d < 2 * R ∨ (2 * R = d ∧ Q % 2 = 1) then Q + 1 else Q
  Q2 * pow2 e

/-- Rounding of `z / q` for an integer `z`: the sign is kept, the magnitude
rounded by `roundNat`. -/
def roundInt (z : Int) (q : Nat) : Int :=
  if z < 0 then -((roundNat z.natAbs q : Nat) : Int) else ((roundNat z.natAbs q : Nat) : Int)

/-- Digit by digit integer square root: bits `b - 1` down to `0` are tried on
top of `r`. -/
def isqrtAux (n : Nat) : Nat → Nat → Nat
  | 0, r => r
  | b + 1, r =>
    let c := r + pow2 b
    if c * c ≤ n then isqrtAux n b c else isqrtAux n b r

/-- Floor of the square root of `n`. -/
def isqrt (n : Nat) : Nat := isqrtAux n (ilog2 n / 2 + 1) 0

/-- The number `2 ^ 149`: how many units of `2 ^ -149` make one. -/
def unit : Nat := 713623846352979940529142984724747568191373312

end F32impl

/-- A finite IEEE 754 binary32 value, as the integer number of units of
`2 ^ -149` (the smallest subnormal): the value is `units / 2 ^ 149`. Every
finite binary32 number is such a multiple, and subnormal results are kept
(no flush to zero). Infinities and NaN are not represented and the exponent
is not bounded above: the statements on `F32` stay below `2 ^ 128`. -/
structure F32 where
  units : Int
deriving DecidableEq, Repr

namespace F32

open F32impl

/-- Sum, rounded to nearest, ties to even. -/
def add (a b : F32) : F32 := ⟨roundInt (a.units + b.units) 1⟩

/-- Difference, rounded to nearest, ties to even. -/
def sub (a b : F32) : F32 := ⟨roundInt (a.units - b.units) 1⟩

/-- Product, rounded to nearest, ties to even. -/
def mul (a b : F32) : F32 := ⟨roundInt (a.units * b.units) unit⟩

/-- Quotient, rounded to nearest, ties to even; a zero divisor, which gives an
infinity or a NaN in binary32, is given the value zero here. -/
def div (a b : F32) : F32 :=
  if b.units = 0 then ⟨0⟩ else
  let m : Int := ((roundNat (a.units.natAbs * unit) b.units.natAbs : Nat) : Int)
  if (a.units < 0) = (b.units < 0) then ⟨m⟩ else ⟨-m⟩

/-- Square root, rounded to nearest; the floor of the root and a sticky bit
decide the rounding. A negative argument, a NaN in binary32, gives zero. -/
def sqrt (a : F32) : F32 :=
  if a.units ≤ 0 then ⟨0⟩ else
  let N := a.units.natAbs * unit
  let s := isqrt N
  ⟨((roundNat (2 * s + (if s * s = N then 0 else 1)) 2 : Nat) : Int)⟩

/-- The literal `a / b` rounded to binary32, as the compiler reads `0.0001f`. -/
def lit (a b : Nat) : F32 := ⟨(roundNat (a * unit) b : Nat)⟩

/-- The integer `k` as a binary32 value (exact for `|k| ≤ 2 ^ 24`). -/
def ofInt (k : Int) : F32 := ⟨k * unit⟩

/-- Sign change. -/
def neg (a : F32) : F32 := ⟨-a.units⟩

/-- The built-in `fabs`. -/
def fabs (a : F32) : F32 := ⟨(a.units.natAbs : Int)⟩

/-- The comparison `a < b`. -/
def lt (a b : F32) : Bool := decide (a.units < b.units)

/-- The built-in `dot`, each product and sum rounded, summed left to right. -/
def dot (a b : Float3 F32) : F32 := add (add (mul a.x b.x) (mul a.y b.y)) (mul a.z b.z)

/-- The built-in `length`: the rounded square root of `dot v v`. -/
def length (v : Float3 F32) : F32 := sqrt (dot v v)

/-- The built-in `normalize`: each component divided by `length v`. -/
def normalize (v : Float3 F32) : Float3 F32 :=
  ⟨div v.x (length v), div v.y (length v), div v.z (length v)⟩

/-- The cast `(uint) a`: truncation toward zero, undefined (`none`) when the
truncated value is not below `2 ^ 32` or is negative. -/
def toUint (a : F32) : Option Nat :=
  if a.units ≤ -(unit : Int) ∨ 4294967296 * (unit : Int) ≤ a.units then none
  else some (a.units.toNat / unit)

/-- The vector with integer coordinates `x`, `y`, `z`. -/
def vec (x y z : Int) : Float3 F32 := ⟨ofInt x, ofInt y, ofInt z⟩

end F32

/-- The arithmetic of binary32 with round to nearest, ties to even, and the
constants of `raytrace.h` as the compiler rounds them. -/
def binary32 : FloatOps F32 :=
  { zero := F32.ofInt 0, one := F32.ofInt 1, dx := F32.lit 1 10000, bound := F32.ofInt 20,
    dark := F32.lit 1 5, light := F32.lit 9 10, scale := F32.ofInt 255,
    add := F32.add, sub := F32.sub, mul := F32.mul, div := F32.div, neg := F32.neg,
    fabs := F32.fabs, lt := F32.lt, dot := F32.dot, normalize := F32.normalize,
    toUint := F32.toUint }

/-- Modelled from the spec: signed distance from `p` to the sphere of centre
`c` and radius `r`, `length (p - c) - r`, in binary32; the primitive
evaluators of `kernel_primitives.h` are not among the sources. -/
def sphereDist32 (c : Float3 F32) (r : F32) (p : Float3 F32) : F32 :=
  F32.sub (F32.length ⟨F32.sub p.x c.x, F32.sub p.y c.y, F32.sub p.z c.z⟩) r

/-- Modelled from the spec: the intersection of the half-spaces `x ≤ 0` and
`x ≥ 0` (operator INTERSECTION, the maximum of `p.x` and `-p.x`), a slab of
no thickness with distance `|p.x|`. -/
def slab32 (p : Float3 F32) : F32 := F32.fabs p.x

/-- Modelled from the spec: the half-space `x ≤ 2`, with distance `p.x - 2`. -/
def halfSpace32 (p : Float3 F32) : F32 := F32.sub p.x (F32.ofInt 2)

end Kernel

namespace LuaInterface

/-- The functions of the Lua C API that the argument readers call, over an
abstract interpreter state: Lua is an external library. `Ptr` is the type of
the block address that `lua_touserdata` returns. -/
structure LuaApi (State Number Ptr : Type) where
  lua_isnumber : State → Int → Bool
  lua_tonumber : State → Int → Number
  lua_isstring : State → Int → Bool
  lua_tostring : State → Int → String
  lua_isuserdata : State → Int → Bool
  lua_touserdata : State → Int → Ptr

/-- The function `luathrow`: it pushes the message and calls `lua_error`,
which does not return; the message is the error value handed to Lua. The
output to `std::cout` is left out. -/
def luathrow (error : String) : Except String Unit :=
  throw error

section Readers

variable {State Number Ptr : Type} (api : LuaApi State Number Ptr)

/-- The specialization `read_lua<float>`; `toFloat` is the cast `(float)`. -/
def read_lua_float {F : Type} (toFloat : Number → F) (L : State) (i : Int) :
    Except String F := do
  if !api.lua_isnumber L i then
    luathrow "Cannot convert to a number"
  return toFloat (api.lua_tonumber L i)

/-- The specialization `read_lua<double>`; `toDouble` is the cast `(double)`. -/
def read_lua_double {D : Type} (toDouble : Number → D) (L : State) (i : Int) :
    Except String D := do
  if !api.lua_isnumber L i then
    luathrow "Cannot convert to a number"
  return toDouble (api.lua_tonumber L i)

/-- The specialization `read_lua<int>`; `toInt` is the cast `(int)`. -/
def read_lua_int {I : Type} (toInt : Number → I) (L : State) (i : Int) :
    Except String I := do
  if !api.lua_isnumber L i then
    luathrow "Cannot convert to a number"
  return toInt (api.lua_tonumber L i)

/-- The specialization `read_lua<std::string>`. -/
def read_lua_string (L : State) (i : Int) : Except String String := do
  if !api.lua_isstring L i then
    luathrow "Cannot readstring"
  let ret := api.lua_tostring L i
  return ret

/-- The specialization `read_lua<entities::ent_ref>`; `deref` reads the
`ent_ref` stored in the userdata block. -/
def read_lua_ent_ref {E : Type} (deref : Ptr → E) (L : State) (i : Int) :
    Except String E := do
  if !api.lua_isuserdata L i then
    luathrow "Not an entity..."
  let ref := deref (api.lua_touserdata L i)
  return ref

end Readers

end LuaInterface

namespace Kernel

open Float3

section Loop

variable {α : Type} [LinearOrderedField α]

theorem DX_pos : (0 : α) < DX := by
  unfold DX; positivity

theorem GRADIENT_samples_length (func : Float3 α → α) (pt : Float3 α) (v0 : α) :
    (GRADIENT func pt v0).samples.length = 3 := by
  simp [GRADIENT]

theorem marchBody_neg (f : Float3 α → α) (dir : Float3 α) (tol : α) (i : Nat)
    (s : MarchState α) (h : f s.pt < 0) :
    marchBody f dir tol i s = Step.brk { s with evals := s.evals ++ [s.pt] } := by
  simp [marchBody, h]

theorem marchBody_hit (f : Float3 α → α) (dir : Float3 α) (tol : α) (i : Nat)
    (s : MarchState α) (h0 : ¬ f s.pt < 0) (h1 : f s.pt < tol) :
    marchBody f dir tol i s = Step.brk (hitState f s) := by
  simp [marchBody, h0, h1, hitState]

theorem marchBody_adv (f : Float3 α → α) (dir : Float3 α) (tol : α) (i : Nat)
    (s : MarchState α) (h0 : ¬ f s.pt < 0) (h1 : ¬ f s.pt < tol) :
    marchBody f dir tol i s =
      if 5 < i ∧ outOfBound (advanced f dir s).pt then Step.brk (advanced f dir s)
      else Step.next (advanced f dir s) := by
  simp [marchBody, h0, h1, advanced]

theorem marchBody_next (f : Float3 α → α) (dir : Float3 α) (tol : α) (i : Nat)
    (s t : MarchState α) (h : marchBody f dir tol i s = Step.next t) :
    ¬ f s.pt < 0 ∧ ¬ f s.pt < tol ∧ ¬ (5 < i ∧ outOfBound (advanced f dir s).pt) ∧
      t = advanced f dir s := by
  by_cases h0 : f s.pt < 0
  · rw [marchBody_neg f dir tol i s h0] at h; cases h
  by_cases h1 : f s.pt < tol
  · rw [marchBody_hit f dir tol i s h0 h1] at h; cases h
  rw [marchBody_adv f dir tol i s h0 h1] at h
  by_cases h2 : 5 < i ∧ outOfBound (advanced f dir s).pt
  · rw [if_pos h2] at h; cases h
  · rw [if_neg h2] at h
    cases h
    exact ⟨h0, h1, h2, rfl⟩

theorem stateAt_succ (f : Float3 α → α) (dir : Float3 α) (tol : α) (pt : Float3 α)
    (i : Nat) (t : MarchState α) (h : stateAt f dir tol pt (i + 1) = some t) :
    ∃ s, stateAt f dir tol pt i = some s ∧ marchBody f dir tol i s = Step.next t := by
  simp only [stateAt] at h
  cases hs : stateAt f dir tol pt i with
  | none => rw [hs] at h; cases h
  | some s =>
    rw [hs] at h
    cases hb : marchBody f dir tol i s with
    | brk u => simp only [hb] at h; cases h
    | next u =>
      simp only [hb] at h
      cases h
      exact ⟨s, rfl, hb⟩

theorem stateAt_step (f : Float3 α → α) (dir : Float3 α) (tol : α) (pt : Float3 α)
    (i : Nat) (s t : MarchState α) (hs : stateAt f dir tol pt i = some s)
    (hb : marchBody f dir tol i s = Step.next t) :
    stateAt f dir tol pt (i + 1) = some t := by
  simp only [stateAt, hs, hb]

/-- A state met at the top of an iteration has no hit recorded, a zero `norm`,
and one logged evaluation per iteration done so far. -/
theorem stateAt_inv (f : Float3 α → α) (dir : Float3 α) (tol : α) (pt : Float3 α) :
    ∀ (i : Nat) (s : MarchState α), stateAt f dir tol pt i = some s →
      s.found = false ∧ s.norm = ⟨0, 0, 0⟩ ∧ s.evals.length = i := by
  intro i
  induction i with
  | zero =>
    intro s h
    simp only [stateAt] at h
    cases h
    simp [initState]
  | succ i ih =>
    intro t h
    obtain ⟨s, hs, hb⟩ := stateAt_succ f dir tol pt i t h
    obtain ⟨hf, hn, hl⟩ := ih s hs
    obtain ⟨-, -, -, ht⟩ := marchBody_next f dir tol i s t hb
    subst ht
    simp [advanced, hf, hn, hl]

/-- From a state met at the top of iteration `i` the loop goes on as the loop
started there with the iterations that are left. -/
theorem marchLoop_stateAt (f : Float3 α → α) (dir : Float3 α) (tol : α) (pt : Float3 α) :
    ∀ (i n : Nat) (s : MarchState α), stateAt f dir tol pt i = some s →
      marchLoop f dir tol (i + n) 0 (initState pt) = marchLoop f dir tol n i s := by
  intro i
  induction i with
  | zero =>
    intro n s h
    simp only [stateAt] at h
    cases h
    simp
  | succ i ih =>
    intro n t h
    obtain ⟨s, hs, hb⟩ := stateAt_succ f dir tol pt i t h
    have := ih (n + 1) s hs
    rw [show i + 1 + n = i + (n + 1) by omega, this]
    simp only [marchLoop, hb]

theorem marchLoop_reach (f : Float3 α → α) (dir : Float3 α) (tol : α) (pt : Float3 α)
    (i : Nat) (iters : Int) (s : MarchState α) (hs : stateAt f dir tol pt i = some s)
    (hi : (i : Int) < iters) :
    marchLoop f dir tol iters.toNat 0 (initState pt) =
      match marchBody f dir tol i s with
      | Step.brk t => t
      | Step.next t => marchLoop f dir tol (iters.toNat - i - 1) (i + 1) t := by
  have h : iters.toNat = i + ((iters.toNat - i - 1) + 1) := by omega
  rw [h, marchLoop_stateAt f dir tol pt i _ s hs]
  simp only [marchLoop]
  congr 1
  ext t
  congr 1
  omega

theorem marchLoop_evals (f : Float3 α → α) (dir : Float3 α) (tol : α) :
    ∀ (n i : Nat) (s : MarchState α), s.found = false →
      ∃ m g : List (Float3 α),
        (marchLoop f dir tol n i s).evals = s.evals ++ m ++ g ∧ m.length ≤ n ∧
          g.length = (if (marchLoop f dir tol n i s).found then 3 else 0) := by
  intro n
  induction n with
  | zero =>
    intro i s hf
    exact ⟨[], [], by simp [marchLoop], by simp, by simp [marchLoop, hf]⟩
  | succ n ih =>
    intro i s hf
    by_cases h0 : f s.pt < 0
    · refine ⟨[s.pt], [], ?_, by simp, ?_⟩ <;>
        simp [marchLoop, marchBody_neg f dir tol i s h0, hf]
    by_cases h1 : f s.pt < tol
    · refine ⟨[s.pt], (GRADIENT f s.pt (f s.pt)).samples, ?_, by simp, ?_⟩ <;>
        simp [marchLoop, marchBody_hit f dir tol i s h0 h1, hitState,
          GRADIENT_samples_length]
    by_cases h2 : 5 < i ∧ outOfBound (advanced f dir s).pt
    · have hl : marchLoop f dir tol (n + 1) i s = advanced f dir s := by
        simp only [marchLoop, marchBody_adv f dir tol i s h0 h1, if_pos h2]
      refine ⟨[s.pt], [], ?_, by simp, ?_⟩ <;> rw [hl] <;> simp [advanced, hf]
    · obtain ⟨m, g, he, hm, hg⟩ := ih (i + 1) (advanced f dir s) (by simp [advanced, hf])
      have hl : marchLoop f dir tol (n + 1) i s =
          marchLoop f dir tol n (i + 1) (advanced f dir s) := by
        simp only [marchLoop, marchBody_adv f dir tol i s h0 h1, if_neg h2]
      refine ⟨s.pt :: m, g, ?_, by simp; omega, ?_⟩
      · rw [hl, he]; simp [advanced]
      · rw [hl]; exact hg

theorem marchLoop_no_hit (f : Float3 α → α) (dir : Float3 α) (tol : α) (pt : Float3 α) :
    ∀ (n i : Nat) (s : MarchState α), stateAt f dir tol pt i = some s →
      (∀ (j : Nat) (t : MarchState α), stateAt f dir tol pt j = some t → j < i + n →
        ¬ (0 ≤ f t.pt ∧ f t.pt < tol)) →
      (marchLoop f dir tol n i s).found = false := by
  intro n
  induction n with
  | zero =>
    intro i s hs _
    simpa [marchLoop] using (stateAt_inv f dir tol pt i s hs).1
  | succ n ih =>
    intro i s hs hno
    have hf := (stateAt_inv f dir tol pt i s hs).1
    by_cases h0 : f s.pt < 0
    · simp [marchLoop, marchBody_neg f dir tol i s h0, hf]
    by_cases h1 : f s.pt < tol
    · exact absurd ⟨le_of_not_lt h0, h1⟩ (hno i s hs (by omega))
    by_cases h2 : 5 < i ∧ outOfBound (advanced f dir s).pt
    · have hl : marchLoop f dir tol (n + 1) i s = advanced f dir s := by
        simp only [marchLoop, marchBody_adv f dir tol i s h0 h1, if_pos h2]
      rw [hl]; simp [advanced, hf]
    · have hb : marchBody f dir tol i s = Step.next (advanced f dir s) := by
        rw [marchBody_adv f dir tol i s h0 h1, if_neg h2]
      have hl : marchLoop f dir tol (n + 1) i s =
          marchLoop f dir tol n (i + 1) (advanced f dir s) := by
        simp only [marchLoop, hb]
      rw [hl]
      refine ih (i + 1) _ (stateAt_step f dir tol pt i s _ hs hb) ?_
      intro j t ht hj
      exact hno j t ht (by omega)

theorem marchResult_neg (sqrt : α → α) (f : Float3 α → α) (pt dir : Float3 α)
    (iters : Int) (tol : α) (i : Nat) (s : MarchState α)
    (hreach : stateAt f (normalize sqrt dir) tol pt i = some s)
    (hi : (i : Int) < iters) (hneg : f s.pt < 0) :
    marchResult sqrt f pt dir iters tol = { s with evals := s.evals ++ [s.pt] } := by
  unfold marchResult
  rw [marchLoop_reach f _ tol pt i iters s hreach hi, marchBody_neg f _ tol i s hneg]

theorem marchResult_exit (sqrt : α → α) (f : Float3 α → α) (pt dir : Float3 α)
    (iters : Int) (tol : α) (i : Nat) (s : MarchState α)
    (hreach : stateAt f (normalize sqrt dir) tol pt i = some s)
    (hi : (i : Int) < iters) (h0 : ¬ f s.pt < 0) (h1 : ¬ f s.pt < tol)
    (h2 : 5 < i ∧ outOfBound (advanced f (normalize sqrt dir) s).pt) :
    marchResult sqrt f pt dir iters tol = advanced f (normalize sqrt dir) s := by
  unfold marchResult
  rw [marchLoop_reach f _ tol pt i iters s hreach hi, marchBody_adv f _ tol i s h0 h1,
    if_pos h2]

variable [FloorRing α]

theorem sphere_trace_of_not_found (sqrt : α → α) (f : Float3 α → α) (pt dir : Float3 α)
    (iters : Int) (tol : α)
    (h : (marchResult sqrt f pt dir iters tol).found = false) :
    sphere_trace sqrt f pt dir iters tol = some BACKGROUND_COLOR := by
  unfold marchResult at h
  simp [sphere_trace, h]

/-- C2: when the march reaches iteration `i < iters` with a negative distance,
the loop is left at once: `found` stays false, `norm` stays zero (no gradient
is taken), the point is not advanced, the negative evaluation is the last one
logged, and `sphere_trace` returns `BACKGROUND_COLOR`, for every `f` and every
tolerance. -/
theorem sphere_trace_negative (sqrt : α → α) (f : Float3 α → α) (pt dir : Float3 α)
    (iters : Int) (tol : α) (i : Nat) (s : MarchState α)
    (hreach : stateAt f (normalize sqrt dir) tol pt i = some s)
    (hi : (i : Int) < iters) (hneg : f s.pt < 0) :
    marchResult sqrt f pt dir iters tol =
      { found := false, norm := ⟨0, 0, 0⟩, pt := s.pt, evals := s.evals ++ [s.pt] } ∧
    (marchResult sqrt f pt dir iters tol).evals.length = i + 1 ∧
    sphere_trace sqrt f pt dir iters tol = some BACKGROUND_COLOR ∧
    BACKGROUND_COLOR = 0xff101010 := by
  obtain ⟨hf, hn, hl⟩ := stateAt_inv f _ tol pt i s hreach
  have hr := marchResult_neg sqrt f pt dir iters tol i s hreach hi hneg
  have hr2 : marchResult sqrt f pt dir iters tol =
      { found := false, norm := ⟨0, 0, 0⟩, pt := s.pt, evals := s.evals ++ [s.pt] } := by
    rw [hr, ← hf, ← hn]
  refine ⟨hr2, ?_, ?_, rfl⟩
  · rw [hr2]; simp [hl]
  · apply sphere_trace_of_not_found
    rw [hr2]

/-- C3: the loop (a structural recursion on the iterations left) evaluates the
distance function at no more than `max iters 0` march points, plus three
gradient samples exactly when it hits; when no march distance `d` met has
`0 ≤ d < tolerance` the result is `BACKGROUND_COLOR`; with `iters ≤ 0` nothing
is evaluated and the result is `BACKGROUND_COLOR`. -/
theorem sphere_trace_budget (sqrt : α → α) (f : Float3 α → α) (pt dir : Float3 α)
    (iters : Int) (tol : α) :
    (∃ m g : List (Float3 α),
      (marchResult sqrt f pt dir iters tol).evals = m ++ g ∧
      (m.length : Int) ≤ max iters 0 ∧
      g.length = (if (marchResult sqrt f pt dir iters tol).found then 3 else 0)) ∧
    ((∀ (j : Nat) (t : MarchState α),
        stateAt f (normalize sqrt dir) tol pt j = some t → (j : Int) < iters →
          ¬ (0 ≤ f t.pt ∧ f t.pt < tol)) →
      sphere_trace sqrt f pt dir iters tol = some BACKGROUND_COLOR) ∧
    (iters ≤ 0 →
      (marchResult sqrt f pt dir iters tol).evals = [] ∧
      sphere_trace sqrt f pt dir iters tol = some BACKGROUND_COLOR) ∧
    BACKGROUND_COLOR = 0xff101010 := by
  refine ⟨?_, ?_, ?_, rfl⟩
  · obtain ⟨m, g, he, hm, hg⟩ :=
      marchLoop_evals f (normalize sqrt dir) tol iters.toNat 0 (initState pt) rfl
    refine ⟨m, g, ?_, ?_, hg⟩
    · simpa [marchResult, initState] using he
    · have : (m.length : Int) ≤ (iters.toNat : Int) := by exact_mod_cast hm
      omega
  · intro hno
    apply sphere_trace_of_not_found
    refine marchLoop_no_hit f _ tol pt iters.toNat 0 (initState pt) rfl ?_
    intro j t ht hj
    exact hno j t ht (by omega)
  · intro hle
    have h0 : iters.toNat = 0 := by omega
    have hr : marchResult sqrt f pt dir iters tol = initState pt := by
      simp [marchResult, h0, marchLoop]
    refine ⟨by rw [hr]; rfl, ?_⟩
    apply sphere_trace_of_not_found
    rw [hr]; rfl

/-- C4: in an iteration with index `i` that advances the point (distance
neither negative nor below the tolerance), the loop is left as a miss exactly
when `i > 5` and some coordinate of the advanced point exceeds `BOUND = 20` in
absolute value, and `sphere_trace` then returns `BACKGROUND_COLOR`; for
`i ≤ 5`, or with all three absolute values at most 20, the march goes on to
iteration `i + 1` from the advanced point. -/
theorem sphere_trace_bound_exit (sqrt : α → α) (f : Float3 α → α) (pt dir : Float3 α)
    (iters : Int) (tol : α) (i : Nat) (s p : MarchState α)
    (hreach : stateAt f (normalize sqrt dir) tol pt i = some s)
    (hi : (i : Int) < iters) (h0 : 0 ≤ f s.pt) (h1 : tol ≤ f s.pt)
    (hp : p = { s with pt := Float3.add s.pt (Float3.smul (normalize sqrt dir) (f s.pt)),
                       evals := s.evals ++ [s.pt] }) :
    ((∃ t, marchBody f (normalize sqrt dir) tol i s = Step.brk t) ↔
      5 < i ∧ (|p.pt.x| > 20 ∨ |p.pt.y| > 20 ∨ |p.pt.z| > 20)) ∧
    (marchBody f (normalize sqrt dir) tol i s = Step.next p ↔
      ¬ (5 < i ∧ (|p.pt.x| > 20 ∨ |p.pt.y| > 20 ∨ |p.pt.z| > 20))) ∧
    (5 < i ∧ (|p.pt.x| > 20 ∨ |p.pt.y| > 20 ∨ |p.pt.z| > 20) →
      marchResult sqrt f pt dir iters tol = p ∧ p.found = false ∧
      sphere_trace sqrt f pt dir iters tol = some BACKGROUND_COLOR) ∧
    (i ≤ 5 → stateAt f (normalize sqrt dir) tol pt (i + 1) = some p) ∧
    (|p.pt.x| ≤ 20 ∧ |p.pt.y| ≤ 20 ∧ |p.pt.z| ≤ 20 →
      stateAt f (normalize sqrt dir) tol pt (i + 1) = some p) := by
  have hpa : p = advanced f (normalize sqrt dir) s := hp
  have h0n : ¬ f s.pt < 0 := not_lt.mpr h0
  have h1n : ¬ f s.pt < tol := not_lt.mpr h1
  have hb := marchBody_adv f (normalize sqrt dir) tol i s h0n h1n
  rw [← hpa] at hb
  have hout : outOfBound p.pt ↔ (|p.pt.x| > 20 ∨ |p.pt.y| > 20 ∨ |p.pt.z| > 20) := by
    simp [outOfBound, BOUND]
  rw [← hout]
  have hnext : ¬ (5 < i ∧ outOfBound p.pt) →
      stateAt f (normalize sqrt dir) tol pt (i + 1) = some p := by
    intro h2
    exact stateAt_step f _ tol pt i s p hreach (by rw [hb, if_neg h2])
  refine ⟨?_, ?_, ?_, ?_, ?_⟩
  · constructor
    · rintro ⟨t, ht⟩
      by_contra h2
      rw [hb, if_neg h2] at ht
      cases ht
    · intro h2
      exact ⟨p, by rw [hb, if_pos h2]⟩
  · constructor
    · intro hn h2
      rw [hb, if_pos h2] at hn
      cases hn
    · intro h2
      rw [hb, if_neg h2]
  · intro h2
    have hr : marchResult sqrt f pt dir iters tol = p := by
      rw [hpa]
      exact marchResult_exit sqrt f pt dir iters tol i s hreach hi h0n h1n (hpa ▸ h2)
    have hf : p.found = false := by
      rw [hp]; exact (stateAt_inv f _ tol pt i s hreach).1
    refine ⟨hr, hf, ?_⟩
    apply sphere_trace_of_not_found
    rw [hr]; exact hf
  · intro h5
    exact hnext (fun h => by omega)
  · rintro ⟨hx, hy, hz⟩
    apply hnext
    rintro ⟨-, h⟩
    rw [hout] at h
    rcases h with h | h | h
    · exact absurd hx (not_le.mpr h)
    · exact absurd hy (not_le.mpr h)
    · exact absurd hz (not_le.mpr h)

end Loop

theorem sqrtQ_one : sqrtQ 1 = 1 := by
  simp [sqrtQ]

theorem sphere_trace_negative_witness :
    marchResult sqrtQ (fun p => p.z - 1) ⟨0, 0, 0⟩ ⟨0, 0, -1⟩ 64 (1 / 10000) =
      { found := false, norm := ⟨0, 0, 0⟩, pt := ⟨0, 0, 0⟩, evals := [⟨0, 0, 0⟩] } ∧
    sphere_trace sqrtQ (fun p => p.z - 1) ⟨0, 0, 0⟩ ⟨0, 0, -1⟩ 64 (1 / 10000) =
      some 0xff101010 := by
  obtain ⟨h1, -, h3, h4⟩ :=
    sphere_trace_negative sqrtQ (fun p => p.z - 1) ⟨0, 0, 0⟩ ⟨0, 0, -1⟩ 64
      (1 / 10000) 0 (initState ⟨0, 0, 0⟩) rfl (by norm_num) (by norm_num [initState])
  exact ⟨h1, by rw [h3, h4]⟩

theorem sphere_trace_bound_exit_witness :
    marchResult sqrtQ (fun _ => 4) ⟨0, 0, 0⟩ ⟨0, 0, 1⟩ 64 (1 / 10000) =
      { found := false, norm := ⟨0, 0, 0⟩, pt := ⟨0, 0, 28⟩,
        evals := [⟨0, 0, 0⟩, ⟨0, 0, 4⟩, ⟨0, 0, 8⟩, ⟨0, 0, 12⟩, ⟨0, 0, 16⟩, ⟨0, 0, 20⟩,
          ⟨0, 0, 24⟩] } ∧
    sphere_trace sqrtQ (fun _ => 4) ⟨0, 0, 0⟩ ⟨0, 0, 1⟩ 64 (1 / 10000) =
      some 0xff101010 := by
  obtain ⟨-, -, h3, -, -⟩ :=
    sphere_trace_bound_exit sqrtQ (fun _ => 4) ⟨0, 0, 0⟩ ⟨0, 0, 1⟩ 64 (1 / 10000) 6
      ⟨false, ⟨0, 0, 0⟩, ⟨0, 0, 24⟩,
        [⟨0, 0, 0⟩, ⟨0, 0, 4⟩, ⟨0, 0, 8⟩, ⟨0, 0, 12⟩, ⟨0, 0, 16⟩, ⟨0, 0, 20⟩]⟩
      ⟨false, ⟨0, 0, 0⟩, ⟨0, 0, 28⟩,
        [⟨0, 0, 0⟩, ⟨0, 0, 4⟩, ⟨0, 0, 8⟩, ⟨0, 0, 12⟩, ⟨0, 0, 16⟩, ⟨0, 0, 20⟩, ⟨0, 0, 24⟩]⟩
      (by norm_num [stateAt, marchBody, initState, Float3.normalize, Float3.length, Float3.dot,
        Float3.add, Float3.smul, outOfBound, BOUND, sqrtQ_one])
      (by norm_num) (by norm_num) (by norm_num)
      (by norm_num [Float3.normalize, Float3.length, Float3.dot, Float3.add, Float3.smul,
        sqrtQ_one])
  obtain ⟨h4, -, h5⟩ := h3 (by norm_num)
  exact ⟨h4, h5⟩

section Color

/-- Or-ing the alpha byte with three channel bytes at bit offsets 0, 8 and 16
is adding them: the four bit fields do not overlap. -/
theorem pack_or_eq_add (r g b : Nat) (hr : r ≤ 255) (hg : g ≤ 255) (hb : b ≤ 255) :
    ((0xff000000 ||| r) ||| ((g <<< 8) % 4294967296)) ||| ((b <<< 16) % 4294967296) =
      0xff000000 + r + 256 * g + 65536 * b := by
  have hG : (g <<< 8) % 4294967296 = 2 ^ 8 * g := by
    rw [Nat.shiftLeft_eq]; omega
  have hB : (b <<< 16) % 4294967296 = 2 ^ 16 * b := by
    rw [Nat.shiftLeft_eq]; omega
  rw [hG, hB]
  have e1 : ((0xff000000 ||| r) ||| (2 ^ 8 * g)) ||| (2 ^ 16 * b) =
      ((2 ^ 24 * 255 ||| 2 ^ 16 * b) ||| 2 ^ 8 * g) ||| r := by
    rw [Nat.or_assoc, Nat.or_assoc, Nat.or_comm r, Nat.or_comm (2 ^ 8 * g),
      ← Nat.or_assoc, ← Nat.or_assoc]
    norm_num
  have e2 : 2 ^ 24 * 255 ||| 2 ^ 16 * b = 2 ^ 16 * (65280 + b) := by
    rw [← Nat.mul_add_lt_is_or (by omega : 2 ^ 16 * b < 2 ^ 24) 255]; omega
  have e3 : 2 ^ 16 * (65280 + b) ||| 2 ^ 8 * g = 2 ^ 8 * (256 * (65280 + b) + g) := by
    rw [← Nat.mul_add_lt_is_or (by omega : 2 ^ 8 * g < 2 ^ 16) (65280 + b)]; omega
  have e4 : 2 ^ 8 * (256 * (65280 + b) + g) ||| r = 2 ^ 8 * (256 * (65280 + b) + g) + r := by
    rw [← Nat.mul_add_lt_is_or (by omega : r < 2 ^ 8)]
  rw [e1, e2, e3, e4]; omega

variable {α : Type} [LinearOrderedField α] [FloorRing α]

theorem floatToUint_of_unit (x : α) (h0 : 0 ≤ x) (h1 : x ≤ 1) :
    floatToUint (x * 255) = some ⌊255 * x⌋₊ ∧ ⌊255 * x⌋₊ ≤ 255 := by
  have ha : (0 : α) ≤ x * 255 := by positivity
  have hb : x * 255 ≤ 255 := by nlinarith
  constructor
  · unfold floatToUint
    rw [if_pos ⟨by linarith, by linarith⟩, mul_comm]
  · apply Nat.floor_le_of_le
    rw [mul_comm]; exact_mod_cast hb

theorem colorToInt_of_bytes (rgb : Float3 α) (r g b : Nat)
    (hr : floatToUint (rgb.x * 255) = some r) (hg : floatToUint (rgb.y * 255) = some g)
    (hb : floatToUint (rgb.z * 255) = some b)
    (hr1 : r ≤ 255) (hg1 : g ≤ 255) (hb1 : b ≤ 255) :
    colorToInt rgb = some (0xff000000 + r + 256 * g + 65536 * b) := by
  simp only [colorToInt, hr, hg, hb, Option.bind_eq_bind, Option.some_bind, Option.pure_def]
  rw [pack_or_eq_add r g b hr1 hg1 hb1]

/-- C10: for components in `[0, 1]`, `colorToInt` returns
`0xff000000 + ⌊255 x⌋ + 256 ⌊255 y⌋ + 65536 ⌊255 z⌋`, a 32-bit value whose top
byte is `0xff` and whose bytes at bits 0-7, 8-15 and 16-23 are the three
floors, each at most 255; a component `1` gives the byte 255 and `0` gives 0. -/
theorem colorToInt_packing (rgb : Float3 α) (hx : 0 ≤ rgb.x ∧ rgb.x ≤ 1)
    (hy : 0 ≤ rgb.y ∧ rgb.y ≤ 1) (hz : 0 ≤ rgb.z ∧ rgb.z ≤ 1) :
    ∃ v : Nat, colorToInt rgb = some v ∧
      v = 0xff000000 + ⌊255 * rgb.x⌋₊ + 256 * ⌊255 * rgb.y⌋₊ + 65536 * ⌊255 * rgb.z⌋₊ ∧
      v < 2 ^ 32 ∧
      ⌊255 * rgb.x⌋₊ ≤ 255 ∧ ⌊255 * rgb.y⌋₊ ≤ 255 ∧ ⌊255 * rgb.z⌋₊ ≤ 255 ∧
      v >>> 24 = 0xff ∧
      v &&& 0xff = ⌊255 * rgb.x⌋₊ ∧
      (v >>> 8) &&& 0xff = ⌊255 * rgb.y⌋₊ ∧
      (v >>> 16) &&& 0xff = ⌊255 * rgb.z⌋₊ ∧
      ⌊(255 : α) * 1⌋₊ = 255 ∧ ⌊(255 : α) * 0⌋₊ = 0 := by
  obtain ⟨hr, hr1⟩ := floatToUint_of_unit rgb.x hx.1 hx.2
  obtain ⟨hg, hg1⟩ := floatToUint_of_unit rgb.y hy.1 hy.2
  obtain ⟨hb, hb1⟩ := floatToUint_of_unit rgb.z hz.1 hz.2
  have hmask : ∀ n : Nat, n &&& 0xff = n % 256 := fun n =>
    Nat.and_pow_two_sub_one_eq_mod n 8
  refine ⟨_, colorToInt_of_bytes rgb _ _ _ hr hg hb hr1 hg1 hb1, rfl, by omega, hr1, hg1, hb1,
    ?_, ?_, ?_, ?_, ?_, ?_⟩
  · rw [Nat.shiftRight_eq_div_pow]; omega
  · rw [hmask]; omega
  · rw [hmask, Nat.shiftRight_eq_div_pow]; omega
  · rw [hmask, Nat.shiftRight_eq_div_pow]; omega
  · rw [mul_one]; exact Nat.floor_ofNat 255
  · rw [mul_zero]; exact Nat.floor_zero

theorem colorToInt_packing_witness :
    ((0 : ℚ) ≤ 1 ∧ (1 : ℚ) ≤ 1) ∧ ((0 : ℚ) ≤ 0 ∧ (0 : ℚ) ≤ 1) ∧
    ((0 : ℚ) ≤ 1 / 2 ∧ (1 : ℚ) / 2 ≤ 1) ∧
    colorToInt (⟨1, 0, 1 / 2⟩ : Float3 ℚ) = some 0xff7f00ff := by
  have hx : (0 : ℚ) ≤ 1 ∧ (1 : ℚ) ≤ 1 := by norm_num
  have hy : (0 : ℚ) ≤ 0 ∧ (0 : ℚ) ≤ 1 := by norm_num
  have hz : (0 : ℚ) ≤ 1 / 2 ∧ (1 : ℚ) / 2 ≤ 1 := by norm_num
  obtain ⟨v, hv, he, -⟩ := colorToInt_packing (⟨1, 0, 1 / 2⟩ : Float3 ℚ) hx hy hz
  refine ⟨hx, hy, hz, ?_⟩
  rw [hv, he]
  have h1 : ⌊(255 : ℚ) * 1⌋₊ = 255 := by
    rw [mul_one]; exact Nat.floor_ofNat 255
  have h2 : ⌊(255 : ℚ) * 0⌋₊ = 0 := by
    rw [mul_zero]; exact Nat.floor_zero
  have h3 : ⌊(255 : ℚ) * (1 / 2)⌋₊ = 127 := by
    rw [Nat.floor_eq_iff (by norm_num)]; norm_num
  simp only [h1, h2, h3]

end Color

section Sphere
variable {α : Type} [LinearOrderedField α]

end Sphere

section Sphere2
variable {α : Type} [LinearOrderedField α]

end Sphere2

section Shade
variable {α : Type} [LinearOrderedField α]

variable [FloorRing α]

end Shade

section FpLoop

variable {F : Type} (ops : FloatOps F)

theorem fp_GRADIENT_norm (func : Float3 F → F) (pt : Float3 F) :
    (Fp.GRADIENT ops func pt (func pt)).norm = Fp.bumpedGradient ops func pt := by
  cases pt
  rfl

theorem fp_GRADIENT_pt (func : Float3 F → F) (pt : Float3 F) (v0 : F) :
    (Fp.GRADIENT ops func pt v0).pt = Fp.restoredPoint ops pt := by
  cases pt
  rfl

theorem fp_marchBody_neg (f : Float3 F → F) (dir : Float3 F) (tol : F) (i : Nat)
    (s : MarchState F) (h : ops.lt (f s.pt) ops.zero = true) :
    Fp.marchBody ops f dir tol i s = Step.brk { s with evals := s.evals ++ [s.pt] } := by
  simp [Fp.marchBody, h]

theorem fp_marchBody_hit (f : Float3 F → F) (dir : Float3 F) (tol : F) (i : Nat)
    (s : MarchState F) (h0 : ops.lt (f s.pt) ops.zero = false)
    (h1 : ops.lt (f s.pt) tol = true) :
    Fp.marchBody ops f dir tol i s = Step.brk (Fp.hitState ops f s) := by
  simp [Fp.marchBody, h0, h1, Fp.hitState]

theorem fp_marchBody_adv (f : Float3 F → F) (dir : Float3 F) (tol : F) (i : Nat)
    (s : MarchState F) (h0 : ops.lt (f s.pt) ops.zero = false)
    (h1 : ops.lt (f s.pt) tol = false) :
    Fp.marchBody ops f dir tol i s =
      if 5 < i ∧ Fp.outOfBound ops (Fp.advanced ops f dir s).pt = true
      then Step.brk (Fp.advanced ops f dir s)
      else Step.next (Fp.advanced ops f dir s) := by
  simp [Fp.marchBody, h0, h1, Fp.advanced]

theorem fp_marchBody_next (f : Float3 F → F) (dir : Float3 F) (tol : F) (i : Nat)
    (s t : MarchState F) (h : Fp.marchBody ops f dir tol i s = Step.next t) :
    t = Fp.advanced ops f dir s := by
  cases h0 : ops.lt (f s.pt) ops.zero
  · cases h1 : ops.lt (f s.pt) tol
    · rw [fp_marchBody_adv ops f dir tol i s h0 h1] at h
      by_cases h2 : 5 < i ∧ Fp.outOfBound ops (Fp.advanced ops f dir s).pt = true
      · rw [if_pos h2] at h; cases h
      · rw [if_neg h2] at h; cases h; rfl
    · rw [fp_marchBody_hit ops f dir tol i s h0 h1] at h; cases h
  · rw [fp_marchBody_neg ops f dir tol i s h0] at h; cases h

theorem fp_stateAt_succ (f : Float3 F → F) (dir : Float3 F) (tol : F) (pt : Float3 F)
    (i : Nat) (t : MarchState F) (h : Fp.stateAt ops f dir tol pt (i + 1) = some t) :
    ∃ s, Fp.stateAt ops f dir tol pt i = some s ∧
      Fp.marchBody ops f dir tol i s = Step.next t := by
  simp only [Fp.stateAt] at h
  cases hs : Fp.stateAt ops f dir tol pt i with
  | none => rw [hs] at h; cases h
  | some s =>
    rw [hs] at h
    cases hb : Fp.marchBody ops f dir tol i s with
    | brk u => simp only [hb] at h; cases h
    | next u =>
      simp only [hb] at h
      cases h
      exact ⟨s, rfl, hb⟩

/-- A state met at the top of an iteration has no hit recorded, a zero `norm`,
and one logged evaluation per iteration done so far. -/
theorem fp_stateAt_inv (f : Float3 F → F) (dir : Float3 F) (tol : F) (pt : Float3 F) :
    ∀ (i : Nat) (s : MarchState F), Fp.stateAt ops f dir tol pt i = some s →
      s.found = false ∧ s.norm = ⟨ops.zero, ops.zero, ops.zero⟩ ∧ s.evals.length = i := by
  intro i
  induction i with
  | zero =>
    intro s h
    simp only [Fp.stateAt] at h
    cases h
    simp [Fp.initState]
  | succ i ih =>
    intro t h
    obtain ⟨s, hs, hb⟩ := fp_stateAt_succ ops f dir tol pt i t h
    obtain ⟨hf, hn, hl⟩ := ih s hs
    have ht := fp_marchBody_next ops f dir tol i s t hb
    subst ht
    simp [Fp.advanced, hf, hn, hl]

theorem fp_marchLoop_stateAt (f : Float3 F → F) (dir : Float3 F) (tol : F) (pt : Float3 F) :
    ∀ (i n : Nat) (s : MarchState F), Fp.stateAt ops f dir tol pt i = some s →
      Fp.marchLoop ops f dir tol (i + n) 0 (Fp.initState ops pt) =
        Fp.marchLoop ops f dir tol n i s := by
  intro i
  induction i with
  | zero =>
    intro n s h
    simp only [Fp.stateAt] at h
    cases h
    simp
  | succ i ih =>
    intro n t h
    obtain ⟨s, hs, hb⟩ := fp_stateAt_succ ops f dir tol pt i t h
    have := ih (n + 1) s hs
    rw [show i + 1 + n = i + (n + 1) by omega, this]
    simp only [Fp.marchLoop, hb]

/-- When the body breaks at a reached iteration `i < iters`, the loop ends in
the state of the break. -/
theorem fp_marchResult_brk (f : Float3 F → F) (pt dir : Float3 F) (iters : Int) (tol : F)
    (i : Nat) (s t : MarchState F)
    (hreach : Fp.stateAt ops f (ops.normalize dir) tol pt i = some s)
    (hi : (i : Int) < iters)
    (hb : Fp.marchBody ops f (ops.normalize dir) tol i s = Step.brk t) :
    Fp.marchResult ops f pt dir iters tol = t := by
  unfold Fp.marchResult
  have h : iters.toNat = i + ((iters.toNat - i - 1) + 1) := by omega
  rw [h, fp_marchLoop_stateAt ops f _ tol pt i _ s hreach]
  simp only [Fp.marchLoop, hb]

theorem fp_marchResult_hit (f : Float3 F → F) (pt dir : Float3 F) (iters : Int) (tol : F)
    (i : Nat) (s : MarchState F)
    (hreach : Fp.stateAt ops f (ops.normalize dir) tol pt i = some s)
    (hi : (i : Int) < iters) (h0 : ops.lt (f s.pt) ops.zero = false)
    (h1 : ops.lt (f s.pt) tol = true) :
    Fp.marchResult ops f pt dir iters tol = Fp.hitState ops f s :=
  fp_marchResult_brk ops f pt dir iters tol i s _ hreach hi
    (fp_marchBody_hit ops f _ tol i s h0 h1)

theorem fp_sphere_trace_of_found (f : Float3 F → F) (pt dir : Float3 F) (iters : Int)
    (tol : F) (h : (Fp.marchResult ops f pt dir iters tol).found = true) :
    Fp.sphere_trace ops f pt dir iters tol =
      Fp.hitColour ops (Fp.marchResult ops f pt dir iters tol).norm dir := by
  unfold Fp.marchResult at h
  simp [Fp.sphere_trace, h, Fp.marchResult, Fp.hitColour]

end FpLoop

section ExactInstance

variable {α : Type} [LinearOrderedField α] [FloorRing α] (sqrt : α → α)

theorem exact_GRADIENT (f : Float3 α → α) (pt : Float3 α) (v0 : α) :
    Fp.GRADIENT (exactOps sqrt) f pt v0 = GRADIENT f pt v0 := rfl

theorem exact_colorToInt (rgb : Float3 α) :
    Fp.colorToInt (exactOps sqrt) rgb = colorToInt rgb := rfl

theorem exact_outOfBound (pt : Float3 α) :
    Fp.outOfBound (exactOps sqrt) pt = true ↔ outOfBound pt := by
  simp [Fp.outOfBound, outOfBound, exactOps, or_assoc]

theorem exact_marchBody (f : Float3 α → α) (dir : Float3 α) (tol : α) (i : Nat)
    (s : MarchState α) :
    Fp.marchBody (exactOps sqrt) f dir tol i s = marchBody f dir tol i s := by
  unfold Fp.marchBody marchBody
  simp only [exact_GRADIENT, exact_outOfBound]
  simp [exactOps, Float3.add, Float3.smul]

theorem exact_marchLoop (f : Float3 α → α) (dir : Float3 α) (tol : α) :
    ∀ (n i : Nat) (s : MarchState α),
      Fp.marchLoop (exactOps sqrt) f dir tol n i s = marchLoop f dir tol n i s := by
  intro n
  induction n with
  | zero => intro i s; rfl
  | succ n ih =>
    intro i s
    simp only [Fp.marchLoop, marchLoop, exact_marchBody]
    cases marchBody f dir tol i s with
    | brk t => rfl
    | next t => exact ih (i + 1) t

/-- The definitions `marchBody` to `sphere_trace` over an ordered field are the
definitions over float operations taken at exact arithmetic. -/
theorem exact_sphere_trace (f : Float3 α → α) (pt dir : Float3 α) (iters : Int) (tol : α) :
    Fp.sphere_trace (exactOps sqrt) f pt dir iters tol = sphere_trace sqrt f pt dir iters tol := by
  unfold Fp.sphere_trace sphere_trace
  simp only [exact_marchLoop]
  rfl

end ExactInstance

section FpClaims

variable {F : Type}

/-- C1 (as amended): over any float arithmetic, when the march reaches
iteration `i < iters` with a distance `d` that is not negative and is below
the tolerance, the loop is left in that iteration with `found` set; the advance
`pt += dir * d` is not done and the point is changed only by the macro
`GRADIENT`, which leaves each coordinate as `(c + DX) - DX`; the distance
function has been called at the hit point and at the three bumped points;
`sphere_trace` returns `colorToInt (c, c, c)` with
`c = 0.2 * (1 - s) + 0.9 * s`, `s = dot (normalize g) (-normalize dir)`, and `g`
the one-sided differences with step `DX` that the macro takes: the `x` sample
from the hit point, the `y` and `z` samples from the point with the earlier
coordinates already bumped and restored. -/
theorem fp_sphere_trace_hit (ops : FloatOps F) (f : Float3 F → F) (pt dir : Float3 F)
    (iters : Int) (tol : F) (i : Nat) (s : MarchState F)
    (hreach : Fp.stateAt ops f (ops.normalize dir) tol pt i = some s)
    (hi : (i : Int) < iters) (h0 : ops.lt (f s.pt) ops.zero = false)
    (h1 : ops.lt (f s.pt) tol = true) :
    (Fp.marchResult ops f pt dir iters tol).found = true ∧
    (Fp.marchResult ops f pt dir iters tol).pt =
      ⟨ops.sub (ops.add s.pt.x ops.dx) ops.dx, ops.sub (ops.add s.pt.y ops.dx) ops.dx,
       ops.sub (ops.add s.pt.z ops.dx) ops.dx⟩ ∧
    (Fp.marchResult ops f pt dir iters tol).evals =
      s.evals ++ [s.pt, ⟨ops.add s.pt.x ops.dx, s.pt.y, s.pt.z⟩,
        ⟨ops.sub (ops.add s.pt.x ops.dx) ops.dx, ops.add s.pt.y ops.dx, s.pt.z⟩,
        ⟨ops.sub (ops.add s.pt.x ops.dx) ops.dx, ops.sub (ops.add s.pt.y ops.dx) ops.dx,
          ops.add s.pt.z ops.dx⟩] ∧
    ∃ g : Float3 F, ∃ sdot c : F,
      g = ⟨ops.div (ops.sub (f ⟨ops.add s.pt.x ops.dx, s.pt.y, s.pt.z⟩) (f s.pt)) ops.dx,
           ops.div (ops.sub (f ⟨ops.sub (ops.add s.pt.x ops.dx) ops.dx,
             ops.add s.pt.y ops.dx, s.pt.z⟩) (f s.pt)) ops.dx,
           ops.div (ops.sub (f ⟨ops.sub (ops.add s.pt.x ops.dx) ops.dx,
             ops.sub (ops.add s.pt.y ops.dx) ops.dx, ops.add s.pt.z ops.dx⟩) (f s.pt))
             ops.dx⟩ ∧
      sdot = ops.dot (ops.normalize g)
        ⟨ops.neg (ops.normalize dir).x, ops.neg (ops.normalize dir).y,
         ops.neg (ops.normalize dir).z⟩ ∧
      c = ops.add (ops.mul ops.dark (ops.sub ops.one sdot)) (ops.mul ops.light sdot) ∧
      Fp.sphere_trace ops f pt dir iters tol = Fp.colorToInt ops ⟨c, c, c⟩ := by
  have hr := fp_marchResult_hit ops f pt dir iters tol i s hreach hi h0 h1
  have hfound : (Fp.marchResult ops f pt dir iters tol).found = true := by
    rw [hr]; rfl
  refine ⟨hfound, ?_, ?_, _, _, _, rfl, rfl, rfl, ?_⟩
  · rw [hr]; exact fp_GRADIENT_pt ops f s.pt (f s.pt)
  · rw [hr]; cases s; simp [Fp.hitState, Fp.GRADIENT]
  · rw [fp_sphere_trace_of_found ops f pt dir iters tol hfound, hr]
    simp only [Fp.hitState, fp_GRADIENT_norm]
    rfl

/-- C8 (as amended): over any float arithmetic, on a hit at the point `p` with
march distance `d = f p` the vector that is normalized to the surface normal
is the one-sided (forward) difference that the macro `GRADIENT` takes with
step `DX`: each axis in turn is bumped by `DX`, sampled and restored by
subtracting `DX`, and the component is `(sample - d) / DX`; the `y` and `z`
samples are taken after the earlier axes went through `+ DX` and `- DX`. -/
theorem fp_gradient_forward_difference (ops : FloatOps F) (f : Float3 F → F)
    (pt dir : Float3 F) (iters : Int) (tol : F) (i : Nat) (s : MarchState F)
    (hreach : Fp.stateAt ops f (ops.normalize dir) tol pt i = some s)
    (hi : (i : Int) < iters) (h0 : ops.lt (f s.pt) ops.zero = false)
    (h1 : ops.lt (f s.pt) tol = true) :
    (Fp.marchResult ops f pt dir iters tol).found = true ∧
    (Fp.marchResult ops f pt dir iters tol).norm =
      ⟨ops.div (ops.sub (f ⟨ops.add s.pt.x ops.dx, s.pt.y, s.pt.z⟩) (f s.pt)) ops.dx,
       ops.div (ops.sub (f ⟨ops.sub (ops.add s.pt.x ops.dx) ops.dx,
         ops.add s.pt.y ops.dx, s.pt.z⟩) (f s.pt)) ops.dx,
       ops.div (ops.sub (f ⟨ops.sub (ops.add s.pt.x ops.dx) ops.dx,
         ops.sub (ops.add s.pt.y ops.dx) ops.dx, ops.add s.pt.z ops.dx⟩) (f s.pt))
         ops.dx⟩ ∧
    Fp.sphere_trace ops f pt dir iters tol =
      Fp.colorToInt ops
        (Fp.shade ops (Fp.marchResult ops f pt dir iters tol).norm (ops.normalize dir)) := by
  have hr := fp_marchResult_hit ops f pt dir iters tol i s hreach hi h0 h1
  have hfound : (Fp.marchResult ops f pt dir iters tol).found = true := by
    rw [hr]; rfl
  refine ⟨hfound, ?_, fp_sphere_trace_of_found ops f pt dir iters tol hfound⟩
  rw [hr]
  exact fp_GRADIENT_norm ops f s.pt

end FpClaims

open F32 in
set_option maxRecDepth 1000000 in
/-- C1 fails as stated: in binary32, for the half-space `x ≤ 2`, a ray from
`(2, 0, 0)` along `(-3, -4, 0)` hits at once (distance `0`); the macro leaves
`x` below 2, so the `y` and `z` samples are not taken at the hit point, the
gradient is not the one-sided difference at the hit point, and the kernel
returns `0xff9d9d9d` where the colour of that difference is `0xff9e9e9e`. -/
theorem fp_sphere_trace_hit_counterexample :
    halfSpace32 (vec 2 0 0) = ofInt 0 ∧
    (Fp.marchResult binary32 halfSpace32 (vec 2 0 0) (vec (-3) (-4) 0) 64 (lit 1 10000)).found
      = true ∧
    F32.lt (Fp.marchResult binary32 halfSpace32 (vec 2 0 0) (vec (-3) (-4) 0) 64
      (lit 1 10000)).pt.x (ofInt 2) = true ∧
    (Fp.marchResult binary32 halfSpace32 (vec 2 0 0) (vec (-3) (-4) 0) 64 (lit 1 10000)).pt
      ≠ vec 2 0 0 ∧
    (Fp.gradientAt binary32 halfSpace32 (vec 2 0 0)).y = ofInt 0 ∧
    F32.lt (Fp.marchResult binary32 halfSpace32 (vec 2 0 0) (vec (-3) (-4) 0) 64
      (lit 1 10000)).norm.y (ofInt 0) = true ∧
    Fp.sphere_trace binary32 halfSpace32 (vec 2 0 0) (vec (-3) (-4) 0) 64 (lit 1 10000)
      = some 0xff9d9d9d ∧
    Fp.hitColour binary32 (Fp.gradientAt binary32 halfSpace32 (vec 2 0 0)) (vec (-3) (-4) 0)
      = some 0xff9e9e9e := by
  decide

open F32 in
set_option maxRecDepth 1000000 in
theorem fp_sphere_trace_hit_witness :
    binary32.lt (halfSpace32 (vec 2 0 0)) binary32.zero = false ∧
    binary32.lt (halfSpace32 (vec 2 0 0)) (lit 1 10000) = true ∧
    (Fp.marchResult binary32 halfSpace32 (vec 2 0 0) (vec (-3) (-4) 0) 64 (lit 1 10000)).found
      = true ∧
    Fp.sphere_trace binary32 halfSpace32 (vec 2 0 0) (vec (-3) (-4) 0) 64 (lit 1 10000)
      = some 0xff9d9d9d := by
  have h0 : binary32.lt (halfSpace32 (vec 2 0 0)) binary32.zero = false := by decide
  have h1 : binary32.lt (halfSpace32 (vec 2 0 0)) (lit 1 10000) = true := by decide
  obtain ⟨hf, -, -, g, sdot, c, hg, hs, hc, hst⟩ :=
    fp_sphere_trace_hit binary32 halfSpace32 (vec 2 0 0) (vec (-3) (-4) 0) 64 (lit 1 10000) 0
      (Fp.initState binary32 (vec 2 0 0)) rfl (by decide) h0 h1
  refine ⟨h0, h1, hf, ?_⟩
  rw [hst, hc, hs, hg]
  decide

open F32 in
set_option maxRecDepth 1000000 in
/-- C8 fails as stated: in binary32, on the slab `|x|` a ray from the origin
hits at once and the macro's gradient is `(1, 0, 0)` while the central
difference is `(0, 0, 0)`; on the sphere of radius `2 ^ -10` at the origin a
ray from the pole `(0, 0, 2 ^ -10)` hits at once, the first component of the
macro's gradient is positive and that of the central difference is zero. -/
theorem fp_gradient_central_counterexample :
    ((Fp.marchResult binary32 slab32 (vec 0 0 0) (vec 0 0 (-1)) 64 (lit 1 10000)).found
        = true ∧
      (Fp.marchResult binary32 slab32 (vec 0 0 0) (vec 0 0 (-1)) 64 (lit 1 10000)).pt
        = vec 0 0 0 ∧
      (Fp.marchResult binary32 slab32 (vec 0 0 0) (vec 0 0 (-1)) 64 (lit 1 10000)).norm
        = vec 1 0 0 ∧
      Fp.centralGradient binary32 slab32 (vec 0 0 0) = vec 0 0 0) ∧
    ((Fp.marchResult binary32 (sphereDist32 (vec 0 0 0) (lit 1 1024))
        ⟨ofInt 0, ofInt 0, lit 1 1024⟩ (vec 0 0 (-1)) 64 (lit 1 10000)).found = true ∧
      F32.lt (ofInt 0) (Fp.marchResult binary32 (sphereDist32 (vec 0 0 0) (lit 1 1024))
        ⟨ofInt 0, ofInt 0, lit 1 1024⟩ (vec 0 0 (-1)) 64 (lit 1 10000)).norm.x = true ∧
      (Fp.centralGradient binary32 (sphereDist32 (vec 0 0 0) (lit 1 1024))
        ⟨ofInt 0, ofInt 0, lit 1 1024⟩).x = ofInt 0) := by
  decide

open F32 in
set_option maxRecDepth 1000000 in
theorem fp_gradient_forward_difference_witness :
    binary32.lt (slab32 (vec 0 0 0)) binary32.zero = false ∧
    binary32.lt (slab32 (vec 0 0 0)) (lit 1 10000) = true ∧
    (Fp.marchResult binary32 slab32 (vec 0 0 0) (vec 0 0 (-1)) 64 (lit 1 10000)).found
      = true ∧
    (Fp.marchResult binary32 slab32 (vec 0 0 0) (vec 0 0 (-1)) 64 (lit 1 10000)).norm
      = vec 1 0 0 := by
  have h0 : binary32.lt (slab32 (vec 0 0 0)) binary32.zero = false := by decide
  have h1 : binary32.lt (slab32 (vec 0 0 0)) (lit 1 10000) = true := by decide
  obtain ⟨hf, hn, -⟩ :=
    fp_gradient_forward_difference binary32 slab32 (vec 0 0 0) (vec 0 0 (-1)) 64 (lit 1 10000)
      0 (Fp.initState binary32 (vec 0 0 0)) rfl (by decide) h0 h1
  refine ⟨h0, h1, hf, ?_⟩
  rw [hn]
  decide

section Binary32

open F32 F32impl

end Binary32

section Binary32Away

open F32 F32impl

end Binary32Away

end Kernel

namespace LuaInterface

section ReaderLemmas

variable {State Number Ptr : Type} (api : LuaApi State Number Ptr)

/-- A reader guarded by a check `ok`: the error `msg` when the check fails,
the value `v` otherwise. -/
theorem guarded_read {β : Type} (ok : Bool) (msg : String) (v : β) :
    ((do
        if !ok then luathrow msg
        return v) : Except String β) =
      if ok then Except.ok v else Except.error msg := by
  cases ok <;> rfl

/-- C7: each numeric reader raises `Cannot convert to a number` exactly when
`lua_isnumber` is false and otherwise returns the converted number; the
string reader raises `Cannot readstring` exactly when `lua_isstring` is false;
the entity reader raises `Not an entity...` exactly when `lua_isuserdata` is
false; a raised error returns no value, so nothing that consumes the value
(the entity constructor `k`) runs. -/
theorem read_lua_type_check {F D I E R : Type} (toFloat : Number → F)
    (toDouble : Number → D) (toInt : Number → I) (deref : Ptr → E) (L : State) (i : Int) :
    ((read_lua_float api toFloat L i = Except.error "Cannot convert to a number" ↔
        api.lua_isnumber L i = false) ∧
      (read_lua_float api toFloat L i = Except.ok (toFloat (api.lua_tonumber L i)) ↔
        api.lua_isnumber L i = true)) ∧
    ((read_lua_double api toDouble L i = Except.error "Cannot convert to a number" ↔
        api.lua_isnumber L i = false) ∧
      (read_lua_double api toDouble L i = Except.ok (toDouble (api.lua_tonumber L i)) ↔
        api.lua_isnumber L i = true)) ∧
    ((read_lua_int api toInt L i = Except.error "Cannot convert to a number" ↔
        api.lua_isnumber L i = false) ∧
      (read_lua_int api toInt L i = Except.ok (toInt (api.lua_tonumber L i)) ↔
        api.lua_isnumber L i = true)) ∧
    ((read_lua_string api L i = Except.error "Cannot readstring" ↔
        api.lua_isstring L i = false) ∧
      (read_lua_string api L i = Except.ok (api.lua_tostring L i) ↔
        api.lua_isstring L i = true)) ∧
    ((read_lua_ent_ref api deref L i = Except.error "Not an entity..." ↔
        api.lua_isuserdata L i = false) ∧
      (read_lua_ent_ref api deref L i = Except.ok (deref (api.lua_touserdata L i)) ↔
        api.lua_isuserdata L i = true)) ∧
    (∀ k : F → Except String R, api.lua_isnumber L i = false →
      (read_lua_float api toFloat L i >>= k) = Except.error "Cannot convert to a number") ∧
    (∀ k : D → Except String R, api.lua_isnumber L i = false →
      (read_lua_double api toDouble L i >>= k) = Except.error "Cannot convert to a number") ∧
    (∀ k : I → Except String R, api.lua_isnumber L i = false →
      (read_lua_int api toInt L i >>= k) = Except.error "Cannot convert to a number") ∧
    (∀ k : String → Except String R, api.lua_isstring L i = false →
      (read_lua_string api L i >>= k) = Except.error "Cannot readstring") ∧
    (∀ k : E → Except String R, api.lua_isuserdata L i = false →
      (read_lua_ent_ref api deref L i >>= k) = Except.error "Not an entity...") := by
  have hf : read_lua_float api toFloat L i = _ :=
    guarded_read (api.lua_isnumber L i) "Cannot convert to a number" _
  have hd : read_lua_double api toDouble L i = _ :=
    guarded_read (api.lua_isnumber L i) "Cannot convert to a number" _
  have hi : read_lua_int api toInt L i = _ :=
    guarded_read (api.lua_isnumber L i) "Cannot convert to a number" _
  have hs : read_lua_string api L i = _ :=
    guarded_read (api.lua_isstring L i) "Cannot readstring" _
  have he : read_lua_ent_ref api deref L i = _ :=
    guarded_read (api.lua_isuserdata L i) "Not an entity..." _
  rw [hf, hd, hi, hs, he]
  cases api.lua_isnumber L i <;> cases api.lua_isstring L i <;>
    cases api.lua_isuserdata L i <;> simp
  all_goals repeat' apply And.intro
  all_goals (intro k; rfl)

end ReaderLemmas

end LuaInterface
